import Mathlib

/-!
Verification development for a Hokm-style trick-taking card game
(2 or 4 players) synchronized through a shared remote document.

The definitions below are a shallow embedding of the TypeScript source:
`types.ts` (data model), `utils.ts` (deck helpers, trick winner, scoring)
and the application component (state transitions: dealing, playing a card,
trick resolution, hakim determination, the transaction wrapper).
Machine numbers are modelled as `Nat` (all quantities involved are small
non-negative integers; no overflow is reachable).  Nullable values are
`Option`s, aborting transaction modifiers return `Option GameState`,
and the random shuffle is abstracted by quantifying over the deck.
-/

namespace Hokm

/-- The `Suit` enum from `types.ts`. -/
inductive Suit : Type
  | Spades
  | Hearts
  | Clubs
  | Diamonds
deriving DecidableEq, Repr

/-- A playing card (`Card` in `types.ts`): rank is the numeric enum 2..14. -/
structure Card : Type where
  id : String
  suit : Suit
  rank : Nat
deriving DecidableEq, Repr

/-- The `GamePhase` enum from `types.ts`. -/
inductive GamePhase : Type
  | LOBBY
  | HAKIM_DETERMINATION
  | DEALING_INITIAL
  | HAKIM_CHOOSING_SUIT
  | DEALING_REMAINDER
  | PLAYING
  | ROUND_END
  | MATCH_END
deriving DecidableEq, Repr

/-- Game mode `"2p" | "4p"`. -/
inductive Mode : Type
  | twoP
  | fourP
deriving DecidableEq, Repr

/-- The seat count for a mode: `mode === "4p" ? 4 : 2`. -/
def modeMax : Mode → Nat
  | Mode.twoP => 2
  | Mode.fourP => 4

/-- A `Player` from `types.ts`.  `teamId` is 1 or 2 in every state the
application builds (assignment is `index % 2 === 0 ? 1 : 2`). -/
structure Player : Type where
  id : String
  name : String
  hand : List Card
  teamId : Nat
  isConnected : Bool
deriving DecidableEq, Repr

/-- One entry of `tableCards`: `{playerId, card}`. -/
structure TableCard : Type where
  playerId : String
  card : Card
deriving DecidableEq, Repr

/-- The `{ [teamId: number]: number }` maps (`scores`, `currentRoundTricks`)
restricted to the two keys 1 and 2 that the application ever writes. -/
structure TeamMap : Type where
  one : Nat
  two : Nat
deriving DecidableEq, Repr

/-- Read `m[t]  || 0` for team `t` (missing keys read as 0). -/
def tmGet (m : TeamMap) (t : Nat) : Nat :=
  if t = 1 then m.one else if t = 2 then m.two else 0

/-- Write `m[t] = v`.  Keys other than 1 and 2 are dropped: the source
only ever indexes with a `teamId`, which is always 1 or 2. -/
def tmSet (m : TeamMap) (t : Nat) (v : Nat) : TeamMap :=
  if t = 1 then { m with one := v } else if t = 2 then { m with two := v } else m

/-- The `GameState` record from `types.ts`; the single shared document. -/
structure GameState : Type where
  roomId : String
  mode : Mode
  phase : GamePhase
  players : List (Option Player)
  deck : List Card
  hakimId : Option String
  hokm : Option Suit
  currentTurnPlayerId : Option String
  tableCards : List TableCard
  scores : TeamMap
  currentRoundTricks : TeamMap
  hakimDeterminationCards : List Card
  lastWinnerId : Option String
  logs : List String
  lastActionTimestamp : Nat
deriving DecidableEq, Repr

/-! ### Seat lookup helpers

The source repeatedly evaluates `players.find(p => p && p.id === x)` and
`players.findIndex(p => p && p.id === x)`.  We model them by structural
recursion so that their relationship is provable directly. -/

/-- The predicate `p => p && p.id === userId` on a seat. -/
def seatMatchesId (uid : String) : Option Player → Bool
  | some q => q.id = uid
  | none => false

/-- The same predicate against a nullable id (`p.id === roomData.hakimId`
where the id may be `null`; comparison with `null` is always false). -/
def seatMatchesOptId (oid : Option String) : Option Player → Bool
  | some q => match oid with
    | some u => q.id = u
    | none => false
  | none => false

/-- Model of `Array.prototype.find`: first seat satisfying `pred` (the seat content
itself, which is `some player` whenever `pred` rejects empty seats). -/
def findSeatPlayer (pred : Option Player → Bool) : List (Option Player) → Option Player
  | [] => none
  | x :: xs => if pred x then x else findSeatPlayer pred xs

/-- Model of `Array.prototype.findIndex`, with `-1` modelled as `none`. -/
def findIdxFrom (pred : Option Player → Bool) : List (Option Player) → Option Nat
  | [] => none
  | x :: xs => if pred x then some 0 else (findIdxFrom pred xs).map (· + 1)

/-- Lookup `players.find(p => p && p.id === uid)`. -/
def findPlayer (ps : List (Option Player)) (uid : String) : Option Player :=
  findSeatPlayer (seatMatchesId uid) ps

/-- Lookup `players.findIndex(p => p && p.id === uid)`. -/
def findPlayerIdx (ps : List (Option Player)) (uid : String) : Option Nat :=
  findIdxFrom (seatMatchesId uid) ps

/-- Lookup `players.find(p => p && p.id === hakimId)` with nullable `hakimId`. -/
def findHakim (ps : List (Option Player)) (oid : Option String) : Option Player :=
  findSeatPlayer (seatMatchesOptId oid) ps

/-- Lookup `players.findIndex(p => p && p.id === hakimId)` with nullable `hakimId`. -/
def findHakimIdx (ps : List (Option Player)) (oid : Option String) : Option Nat :=
  findIdxFrom (seatMatchesOptId oid) ps

/-- Evaluate `players[i] ? players[i].id : null`. -/
def getSeatId (ps : List (Option Player)) (i : Nat) : Option String :=
  match ps[i]? with
  | some (some p) => some p.id
  | _ => none

/-! ### `utils.ts` -/

/-- One iteration of the `determineTrickWinner` loop (`utils.ts` 73–102):
the accumulator is the current `(winnerId, winningCard)` pair. -/
def trickStep (hokm starterSuit : Suit) (acc : String × Card) (tc : TableCard) :
    String × Card :=
  let winningCard := acc.2
  let current := tc.card
  if current.suit = hokm ∧ winningCard.suit ≠ hokm then
    (tc.playerId, current)
  else if current.suit = hokm ∧ winningCard.suit = hokm then
    if current.rank > winningCard.rank then (tc.playerId, current) else acc
  else if current.suit ≠ hokm ∧ winningCard.suit ≠ hokm then
    if current.suit = starterSuit ∧ current.suit = winningCard.suit ∧
        current.rank > winningCard.rank then
      (tc.playerId, current)
    else acc
  else acc

/-- The function `determineTrickWinner(cards, hokm, starterSuit)` (`utils.ts` 65–104).
The source dereferences `cards[0]`; an empty trick is a caller error there
and is mapped to the empty id here (never used by any caller). -/
def determineTrickWinner (cards : List TableCard) (hokm starterSuit : Suit) :
    String :=
  match cards with
  | [] => ""
  | c0 :: rest => (rest.foldl (trickStep hokm starterSuit) (c0.playerId, c0.card)).1

/-- The function `calculateRoundPoints(winningTeamTricks, losingTeamTricks, isWinnerHakimTeam)`
(`utils.ts` 107–124). -/
def calculateRoundPoints (winningTeamTricks losingTeamTricks : Nat)
    (isWinnerHakimTeam : Bool) : Nat :=
  if losingTeamTricks = 0 then
    if !isWinnerHakimTeam then 3 else 2
  else 1

/-! ### The transaction wrapper (`performTransaction`, App 101–134)

The remote store maps a room id to at most one stored document.  The
wrapper fetches the document, applies the modifier, and writes the result
back only when the modifier did not abort (`null`, modelled as `none`).
A missing room raises `ROOM_NOT_FOUND`. -/

/-- The remote `rooms` table, keyed by `room_id`. -/
def Store : Type := String → Option GameState

/-- The wrapper `performTransaction(modifier)`: fetch, apply, and write back unless the
modifier aborted.  The error case models the thrown `ROOM_NOT_FOUND`. -/
def performTransaction (modifier : GameState → Option GameState)
    (roomId : String) (store : Store) : Except String Store :=
  match store roomId with
  | none => Except.error "ROOM_NOT_FOUND"
  | some doc =>
    match modifier doc with
    | none => Except.ok store
    | some newState =>
      Except.ok (fun rid => if rid = roomId then some newState else store rid)

/-! ### Playing a card (`handlePlayCard`, App 572–627)

The handler combines a client-side gate (turn, table size, follow-suit
against the local state) with a transaction modifier that re-checks turn
and table size on the fetched document before mutating it.  Both are
evaluated here against the same state, which is the situation the claims
describe.  `Date.now()` is passed in as `now`. -/

/-- The transaction modifier inside `handlePlayCard` (App 600–626). -/
def playCardModifier (now : Nat) (userId : String) (card : Card)
    (s : GameState) : Option GameState :=
  if s.currentTurnPlayerId = some userId then
    let maxP := modeMax s.mode
    if s.tableCards.length < maxP then
      match findPlayerIdx s.players userId with
      | none => none
      | some idx =>
        match s.players[idx]? with
        | some (some player) =>
          let newHand := player.hand.filter (fun c => c.id ≠ card.id)
          let players1 := s.players.set idx (some { player with hand := newHand })
          let nextIdx := (idx + 1) % maxP
          some { s with
            players := players1
            tableCards := s.tableCards ++ [⟨userId, card⟩]
            lastActionTimestamp := now
            currentTurnPlayerId := getSeatId players1 nextIdx }
        | _ => none
    else none
  else none

/-- The handler `handlePlayCard(card)` for the acting user (App 572–627): the client
gate followed by the transaction modifier. -/
def handlePlayCard (now : Nat) (userId : String) (card : Card)
    (s : GameState) : Option GameState :=
  if s.currentTurnPlayerId = some userId then
    let maxP := modeMax s.mode
    if s.tableCards.length < maxP then
      match findPlayer s.players userId with
      | none => none
      | some player =>
        match s.tableCards with
        | [] => playCardModifier now userId card s
        | t0 :: _ =>
          let leadSuit := t0.card.suit
          if player.hand.any (fun c => c.suit = leadSuit) ∧ card.suit ≠ leadSuit
          then none
          else playCardModifier now userId card s
    else none
  else none

/-! ### Dealing (App 452–544)

The dealing `useEffect` runs the `DEALING_INITIAL` and `DEALING_REMAINDER`
branches.  Both write through the non-transactional path; we model each
branch as a function of the current state (and, for the initial deal, the
freshly shuffled deck).  `none` models the guarded early `return`
(duplicate trigger, or hakim seat not found for the initial deal). -/

/-- Perform `if (newPlayers[idx]) newPlayers[idx].hand = hand`. -/
def setHand (ps : List (Option Player)) (idx : Nat) (hand : List Card) :
    List (Option Player) :=
  match ps[idx]? with
  | some (some p) => ps.set idx (some { p with hand := hand })
  | _ => ps

/-- Complete the hakim's 5-card hand with `extra`, guarded by the exact
length check (`if (currentHand.length === 5)`). -/
def appendHakimHand (ps : List (Option Player)) (idx : Nat) (extra : List Card) :
    List (Option Player) :=
  match ps[idx]? with
  | some (some p) =>
    if p.hand.length = 5 then ps.set idx (some { p with hand := p.hand ++ extra })
    else ps
  | _ => ps

/-- The `DEALING_INITIAL` branch (App 455–480): proceeds only when
`deck.length == 0` and the hakim seat exists; deals `fullDeck`'s first 5
cards to the hakim, stores the remaining 47 as the room's deck, and moves
to `HAKIM_CHOOSING_SUIT`. -/
def dealInitial (s : GameState) (fullDeck : List Card) : Option GameState :=
  if s.deck.length > 0 then none
  else
    match findHakimIdx s.players s.hakimId with
    | none => none
    | some hakimIndex =>
      some { s with
        deck := fullDeck.drop 5
        players := setHand s.players hakimIndex (fullDeck.take 5)
        phase := GamePhase.HAKIM_CHOOSING_SUIT }

/-- The idempotency guard of the `DEALING_REMAINDER` branch:
`players.every(p => p && p.hand.length > 5)`. -/
def allHandsDealt (ps : List (Option Player)) : Bool :=
  ps.all (fun seat => match seat with
    | some p => decide (p.hand.length > 5)
    | none => false)

/-- The `DEALING_REMAINDER` branch (App 482–544).  In the source the hakim
index is used unchecked; a missing hakim seat is unreachable there and is
mapped to `none` here.  Note that the branch never writes the `deck` field
back: the state keeps its 47 cards. -/
def dealRemainder (s : GameState) : Option GameState :=
  if allHandsDealt s.players then none
  else
    match findHakimIdx s.players s.hakimId with
    | none => none
    | some hakimIndex =>
      let deck := s.deck
      match s.mode with
      | Mode.twoP =>
        let otherIndex := if hakimIndex = 0 then 1 else 0
        let hakimExtra := deck.take 8
        let opponentHand := (deck.drop 8).take 13
        let ps1 := appendHakimHand s.players hakimIndex hakimExtra
        let ps2 := setHand ps1 otherIndex opponentHand
        some { s with
          players := ps2
          phase := GamePhase.PLAYING
          currentTurnPlayerId := s.hakimId }
      | Mode.fourP =>
        let ps1 := setHand s.players ((hakimIndex + 1) % 4) (deck.take 13)
        let ps2 := setHand ps1 ((hakimIndex + 2) % 4) ((deck.drop 13).take 13)
        let ps3 := setHand ps2 ((hakimIndex + 3) % 4) ((deck.drop 26).take 13)
        let ps4 := appendHakimHand ps3 hakimIndex ((deck.drop 39).take 8)
        some { s with
          players := ps4
          phase := GamePhase.PLAYING
          currentTurnPlayerId := s.hakimId }

/-! ### Trick resolution (`finishTrickRemote`, App 629–717)

Triggered by the host when the table is full during `PLAYING`; runs as a
transaction modifier.  Log strings stand in for the source's Persian
messages (their content is irrelevant to the state machine). -/

/-- Log line appended when the match ends. -/
def matchEndLog : String := "match over"

/-- Log line appended when a hand ends without ending the match. -/
def handEndLog : String := "hand over"

/-- The `finishTrickRemote` transaction modifier (App 630–716).  The
source asserts `roomData.hokm!`; a `null` hokm is unreachable at this
point and is mapped to `none`. -/
def finishTrick (s : GameState) : Option GameState :=
  let maxP := modeMax s.mode
  if s.tableCards.length < maxP then none
  else
    match s.tableCards with
    | [] => none
    | c0 :: _ =>
      match s.hokm with
      | none => none
      | some hk =>
        let winnerId := determineTrickWinner s.tableCards hk c0.card.suit
        match findPlayer s.players winnerId with
        | none => none
        | some winnerPlayer =>
          let wTeam := winnerPlayer.teamId
          let tricks1 := tmSet s.currentRoundTricks wTeam
            (tmGet s.currentRoundTricks wTeam + 1)
          let s1 := { s with
            currentRoundTricks := tricks1
            lastWinnerId := some winnerId
            currentTurnPlayerId := some winnerId }
          if 7 ≤ tmGet tricks1 1 ∨ 7 ≤ tmGet tricks1 2 then
            let handWinnerTeamId : Nat := if 7 ≤ tmGet tricks1 2 then 2 else 1
            let isHakimTeam : Bool :=
              match findHakim s.players s.hakimId with
              | some hp => decide (hp.teamId = handWinnerTeamId)
              | none => false
            let losingTeamId : Nat := if handWinnerTeamId = 1 then 2 else 1
            let losingTricks := tmGet tricks1 losingTeamId
            let points := calculateRoundPoints 7 losingTricks isHakimTeam
            let scores1 := tmSet s1.scores handWinnerTeamId
              (tmGet s1.scores handWinnerTeamId + points)
            if 7 ≤ tmGet scores1 handWinnerTeamId then
              some { s1 with
                scores := scores1
                phase := GamePhase.MATCH_END
                logs := s1.logs ++ [matchEndLog] }
            else
              let newHakimId :=
                if isHakimTeam then s.hakimId
                else
                  let nextIdx := match findHakimIdx s.players s.hakimId with
                    | some ci => (ci + 1) % maxP
                    | none => 0
                  getSeatId s.players nextIdx
              some { s1 with
                scores := scores1
                phase := GamePhase.DEALING_INITIAL
                deck := []
                tableCards := []
                currentRoundTricks := ⟨0, 0⟩
                hakimId := newHakimId
                hokm := none
                hakimDeterminationCards := []
                logs := s1.logs ++ [handEndLog] }
          else
            some { s1 with tableCards := [] }

/-! ### Hakim determination (App 403–449)

The host reveals one card per tick from a fresh shuffled deck, appending
to `hakimDeterminationCards`, and stops at the first Ace (rank 14); the
seat at `(revealCount - 1) % maxPlayers` becomes hakim and first to act,
and the phase advances to `DEALING_INITIAL`.  The tick/delay timing is
abstracted away; the revealed sequence is the loop's `tempCards`. -/

/-- The sequence of cards revealed by the tick loop: every card up to and
including the first Ace. -/
def revealUntilAce : List Card → List Card
  | [] => []
  | c :: rest => if c.rank = 14 then [c] else c :: revealUntilAce rest

/-- Log line appended when the hakim has been determined. -/
def hakimLog (winnerName : String) : String := winnerName ++ " is hakim"

/-- The overall effect of the hakim-determination loop (App 403–449) on
the state, given the freshly shuffled deck.  If the winning seat is empty
(`if (winner)` fails) only the revealed cards are recorded. -/
def hakimDetermination (s : GameState) (deck : List Card) : GameState :=
  let revealed := revealUntilAce deck
  let s1 := { s with hakimDeterminationCards := revealed }
  let winnerIdx := (revealed.length - 1) % modeMax s.mode
  match s.players[winnerIdx]? with
  | some (some winner) =>
    { s1 with
      hakimId := some winner.id
      currentTurnPlayerId := some winner.id
      phase := GamePhase.DEALING_INITIAL
      logs := s1.logs ++ [hakimLog winner.name] }
  | _ => s1

/-- The `handleSetHokm(suit)` effect (App 564–570): record the trump suit and
advance to `DEALING_REMAINDER`. -/
def setHokm (s : GameState) (suit : Suit) : GameState :=
  { s with hokm := some suit, phase := GamePhase.DEALING_REMAINDER }

/-! ### Generic helper lemmas -/

/-- A `foldl` preserves any invariant its step function preserves. -/
theorem foldl_preserve {α β : Type} (f : β → α → β) (P : β → Prop) :
    ∀ (l : List α) (b : β), P b → (∀ b a, a ∈ l → P b → P (f b a)) → P (l.foldl f b) := by
  intro l
  induction l with
  | nil => intro b hb _; exact hb
  | cons a t ih =>
    intro b hb hstep
    exact ih (f b a) (hstep b a (List.mem_cons_self a t) hb)
      (fun b' a' ha' hb' => hstep b' a' (List.mem_cons_of_mem a ha') hb')

/-- A successful seat index lookup determines the successful seat lookup:
the seat at the found index satisfies the predicate and is the found seat.
Requires that the predicate rejects empty seats (all ours do). -/
theorem findIdxFrom_spec (pred : Option Player → Bool)
    (hnone : pred none = false) :
    ∀ (ps : List (Option Player)) (i : Nat), findIdxFrom pred ps = some i →
      ∃ q : Player, ps[i]? = some (some q) ∧ pred (some q) = true ∧
        findSeatPlayer pred ps = some q := by
  intro ps
  induction ps with
  | nil => intro i h; simp [findIdxFrom] at h
  | cons x xs ih =>
    intro i h
    by_cases hx : pred x = true
    · cases x with
      | none => rw [hnone] at hx; cases hx
      | some q =>
        simp [findIdxFrom, hx] at h
        subst h
        exact ⟨q, by simp, hx, by simp [findSeatPlayer, hx]⟩
    · simp only [findIdxFrom, hx, if_false, Bool.false_eq_true] at h
      rcases Option.map_eq_some'.mp h with ⟨j, hj, rfl⟩
      rcases ih j hj with ⟨q, hq1, hq2, hq3⟩
      refine ⟨q, by simpa using hq1, hq2, ?_⟩
      simp [findSeatPlayer, hx, hq3]

/-! ## Claim C5 -/

/-- C5: `calculateRoundPoints` awards 2 points for a kot won by the hakim's
team, 3 points for a kot won against the hakim's team, and 1 point whenever
the losing team took at least one trick, irrespective of the winner's trick
count. -/
theorem c5_calculateRoundPoints_cases (w l : Nat) (hk : Bool) :
    calculateRoundPoints w l hk = if l = 0 then (if hk then 2 else 3) else 1 := by
  unfold calculateRoundPoints
  cases hk <;> simp

/-! ### Concrete sample data (used by witnesses and counterexamples) -/

/-- A back-of-deck filler card. -/
def cardBack : Card := { id := "x", suit := Suit.Spades, rank := 2 }

/-- A concrete five-card hand (an initial hakim hand). -/
def hand5 : List Card :=
  [{ id := "a", suit := Suit.Spades, rank := 2 },
   { id := "b", suit := Suit.Spades, rank := 3 },
   { id := "c", suit := Suit.Spades, rank := 4 },
   { id := "d", suit := Suit.Spades, rank := 5 },
   { id := "e", suit := Suit.Spades, rank := 6 }]

/-- Sample player one. -/
def playerOne : Player :=
  { id := "p1", name := "A", hand := [{ id := "S-10", suit := Suit.Spades, rank := 10 }],
    teamId := 1, isConnected := true }

/-- Sample player two. -/
def playerTwo : Player :=
  { id := "p2", name := "B", hand := [{ id := "C-2", suit := Suit.Clubs, rank := 2 }],
    teamId := 2, isConnected := true }

/-- A sample two-player `PLAYING` state with `p1` to act. -/
def sampleState : GameState where
  roomId := "r"
  mode := Mode.twoP
  phase := GamePhase.PLAYING
  players := [some playerOne, some playerTwo]
  deck := []
  hakimId := some "p1"
  hokm := some Suit.Hearts
  currentTurnPlayerId := some "p1"
  tableCards := []
  scores := { one := 0, two := 0 }
  currentRoundTricks := { one := 0, two := 0 }
  hakimDeterminationCards := []
  lastWinnerId := none
  logs := []
  lastActionTimestamp := 0

/-- A concrete one-room store holding `sampleState` under id `"r"`. -/
def sampleStore : Store := fun rid => if rid = "r" then some sampleState else none

/-! ## Claim C3 -/

/-- C3: a transaction whose modifier detects a stale precondition and
aborts (returns `null`) leaves the stored documents unchanged — no write
is issued by `performTransaction`. -/
theorem c3_abort_leaves_store_unchanged
    (modifier : GameState → Option GameState) (roomId : String)
    (store : Store) (doc : GameState)
    (hdoc : store roomId = some doc) (habort : modifier doc = none) :
    performTransaction modifier roomId store = Except.ok store := by
  simp [performTransaction, hdoc, habort]

/-- Witness for C3: a concrete aborting modifier (as issued by
`handlePlayCard` when it is not the acting player's turn) leaves the
concrete store untouched. -/
theorem c3_abort_leaves_store_unchanged_witness :
    performTransaction (playCardModifier 5 "p2" cardBack) "r" sampleStore =
      Except.ok sampleStore :=
  c3_abort_leaves_store_unchanged (playCardModifier 5 "p2" cardBack) "r"
    sampleStore sampleState (by decide) (by decide)

/-! ## Claim C4 -/

/-- C4: for a non-empty trick whose first card follows the lead suit, the
winner returned by `determineTrickWinner` owns a card of the trick that is
either trump (`hokm`) or of the lead suit; an off-suit, non-trump card
never wins. -/
theorem c4_trick_winner_trump_or_lead (cards : List TableCard)
    (hokm starterSuit : Suit) (c0 : TableCard) (rest : List TableCard)
    (hcards : cards = c0 :: rest) (hlead : c0.card.suit = starterSuit) :
    ∃ tc ∈ cards, tc.playerId = determineTrickWinner cards hokm starterSuit ∧
      (tc.card.suit = hokm ∨ tc.card.suit = starterSuit) := by
  subst hcards
  have key := foldl_preserve (trickStep hokm starterSuit)
    (fun acc : String × Card =>
      (∃ tc ∈ c0 :: rest, tc.playerId = acc.1 ∧ tc.card = acc.2) ∧
        (acc.2.suit = hokm ∨ acc.2.suit = starterSuit))
    rest (c0.playerId, c0.card)
    ⟨⟨c0, List.mem_cons_self c0 rest, rfl, rfl⟩, Or.inr hlead⟩
    (by
      intro acc tc htc hP
      unfold trickStep
      dsimp only
      split_ifs with h1 h2 h3 h4 h5
      · exact ⟨⟨tc, List.mem_cons_of_mem c0 htc, rfl, rfl⟩, Or.inl h1.1⟩
      · exact ⟨⟨tc, List.mem_cons_of_mem c0 htc, rfl, rfl⟩, Or.inl h2.1⟩
      · exact hP
      · exact ⟨⟨tc, List.mem_cons_of_mem c0 htc, rfl, rfl⟩, Or.inr h5.1⟩
      · exact hP
      · exact hP)
  rcases key with ⟨⟨tc, htc, hpid, hcard⟩, hsuit⟩
  refine ⟨tc, htc, ?_, ?_⟩
  · rw [determineTrickWinner, hpid]
  · rw [← hcard] at hsuit
    exact hsuit

/-- The spec's first trick example: hokm Hearts, lead Spades, plays
Spade-10, Heart-Jack, Spade-Queen, Club-2. -/
def exampleTrick : List TableCard :=
  [{ playerId := "P1", card := { id := "S-10", suit := Suit.Spades, rank := 10 } },
   { playerId := "P2", card := { id := "H-11", suit := Suit.Hearts, rank := 11 } },
   { playerId := "P3", card := { id := "S-12", suit := Suit.Spades, rank := 12 } },
   { playerId := "P4", card := { id := "C-2", suit := Suit.Clubs, rank := 2 } }]

/-- Witness for C4 at the spec's example trick (the sole trump, P2, wins). -/
theorem c4_trick_winner_trump_or_lead_witness :
    ∃ tc ∈ exampleTrick,
      tc.playerId = determineTrickWinner exampleTrick Suit.Hearts Suit.Spades ∧
        (tc.card.suit = Suit.Hearts ∨ tc.card.suit = Suit.Spades) :=
  c4_trick_winner_trump_or_lead exampleTrick Suit.Hearts Suit.Spades
    { playerId := "P1", card := { id := "S-10", suit := Suit.Spades, rank := 10 } }
    (exampleTrick.drop 1) (by decide) (by decide)

/-! ## Claim C8 -/

/-- C8: the `DEALING_INITIAL` transition is a no-op unless `deck` is
empty; from an empty room deck and a fresh 52-card shuffled deck it hands
the hakim exactly the first 5 cards, stores the remaining 47 cards as the
room's deck, and advances to `HAKIM_CHOOSING_SUIT`. -/
theorem c8_deal_initial (s : GameState) (fullDeck : List Card) :
    (s.deck ≠ [] → dealInitial s fullDeck = none) ∧
    (∀ (hi : Nat) (hp : Player), s.deck = [] → fullDeck.length = 52 →
      findHakimIdx s.players s.hakimId = some hi →
      s.players[hi]? = some (some hp) →
      dealInitial s fullDeck =
        some { s with
          deck := fullDeck.drop 5
          players := s.players.set hi (some { hp with hand := fullDeck.take 5 })
          phase := GamePhase.HAKIM_CHOOSING_SUIT } ∧
      (fullDeck.take 5).length = 5 ∧ (fullDeck.drop 5).length = 47) := by
  constructor
  · intro hne
    unfold dealInitial
    have : s.deck.length > 0 := List.length_pos.mpr hne
    simp [this]
  · intro hi hp hdeck hfull hidx hget
    have hlen0 : ¬ s.deck.length > 0 := by simp [hdeck]
    refine ⟨?_, ?_, ?_⟩
    · simp [dealInitial, hlen0, hidx, setHand, hget]
    · simp [List.length_take, hfull]
    · simp [List.length_drop, hfull]

/-- A sample two-player `DEALING_INITIAL` state with no cards dealt. -/
def dealInitialState : GameState :=
  { sampleState with
      phase := GamePhase.DEALING_INITIAL
      players := [some { playerOne with hand := [] }, some { playerTwo with hand := [] }]
      hokm := none }

/-- Witness for C8 at a concrete state and a concrete 52-card deck. -/
theorem c8_deal_initial_witness :
    dealInitialState.deck = [] ∧
    dealInitial dealInitialState (List.replicate 52 cardBack) =
      some { dealInitialState with
        deck := (List.replicate 52 cardBack).drop 5
        players := dealInitialState.players.set 0
          (some { playerOne with hand := (List.replicate 52 cardBack).take 5 })
        phase := GamePhase.HAKIM_CHOOSING_SUIT } ∧
    ((List.replicate 52 cardBack).take 5).length = 5 ∧
    ((List.replicate 52 cardBack).drop 5).length = 47 :=
  ⟨by decide,
    ((c8_deal_initial dealInitialState (List.replicate 52 cardBack)).2 0
      { playerOne with hand := [] } (by decide) (by decide) (by decide)
      (by decide)).imp_left (by intro h; rw [h])⟩

/-! ## Claim C9 -/

/-- The revealed sequence is an initial segment of the shuffled deck. -/
theorem revealUntilAce_take (d : List Card) :
    revealUntilAce d = d.take (revealUntilAce d).length := by
  induction d with
  | nil => rfl
  | cons c rest ih =>
    by_cases hc : c.rank = 14
    · simp [revealUntilAce, hc]
    · simp only [revealUntilAce, hc, if_false, List.length_cons, List.take_succ_cons]
      exact congrArg (c :: ·) ih

/-- If the deck contains an Ace, the revealed sequence ends at the first
Ace: it is some prefix of non-Aces followed by one Ace. -/
theorem revealUntilAce_stops_at_first_ace (d : List Card)
    (h : ∃ c ∈ d, c.rank = 14) :
    ∃ pre last, revealUntilAce d = pre ++ [last] ∧ last.rank = 14 ∧
      ∀ c ∈ pre, c.rank ≠ 14 := by
  induction d with
  | nil => simp at h
  | cons c rest ih =>
    by_cases hc : c.rank = 14
    · exact ⟨[], c, by simp [revealUntilAce, hc], hc, by simp⟩
    · have hrest : ∃ x ∈ rest, x.rank = 14 := by
        rcases h with ⟨x, hx, hx14⟩
        rcases List.mem_cons.mp hx with rfl | hmem
        · exact absurd hx14 hc
        · exact ⟨x, hmem, hx14⟩
      rcases ih hrest with ⟨pre, last, heq, h14, hpre⟩
      refine ⟨c :: pre, last, ?_, h14, ?_⟩
      · simp [revealUntilAce, hc, heq]
      · intro x hx
        rcases List.mem_cons.mp hx with rfl | hmem
        · exact hc
        · exact hpre x hmem

/-- C9: during hakim determination the revealed cards form a prefix of the
deck ending at its first Ace; if that Ace is the `k`-th revealed card the
seat at index `(k-1) mod playerCount` becomes both hakim and first to
act, and the phase advances to `DEALING_INITIAL`. -/
theorem c9_hakim_determination (s : GameState) (deck : List Card)
    (winner : Player)
    (hace : ∃ c ∈ deck, c.rank = 14)
    (hseat : s.players[((revealUntilAce deck).length - 1) % modeMax s.mode]? =
      some (some winner)) :
    revealUntilAce deck = deck.take (revealUntilAce deck).length ∧
    (∃ pre last, revealUntilAce deck = pre ++ [last] ∧ last.rank = 14 ∧
      ∀ c ∈ pre, c.rank ≠ 14) ∧
    hakimDetermination s deck =
      { s with
        hakimDeterminationCards := revealUntilAce deck
        hakimId := some winner.id
        currentTurnPlayerId := some winner.id
        phase := GamePhase.DEALING_INITIAL
        logs := s.logs ++ [hakimLog winner.name] } := by
  refine ⟨revealUntilAce_take deck, revealUntilAce_stops_at_first_ace deck hace, ?_⟩
  unfold hakimDetermination
  dsimp only
  rw [hseat]

/-- A three-card deck whose first Ace is the third card. -/
def sampleDeterminationDeck : List Card :=
  [{ id := "C-5", suit := Suit.Clubs, rank := 5 },
   { id := "D-9", suit := Suit.Diamonds, rank := 9 },
   { id := "H-14", suit := Suit.Hearts, rank := 14 }]

/-- A sample two-player `HAKIM_DETERMINATION` state. -/
def determinationState : GameState :=
  { sampleState with
      phase := GamePhase.HAKIM_DETERMINATION
      hakimId := none
      hokm := none
      currentTurnPlayerId := none }

/-- Witness for C9: with the Ace third, seat `(3-1) mod 2 = 0` (player
`p1`) becomes hakim and first to act. -/
theorem c9_hakim_determination_witness :
    revealUntilAce sampleDeterminationDeck =
      sampleDeterminationDeck.take (revealUntilAce sampleDeterminationDeck).length ∧
    (∃ pre last, revealUntilAce sampleDeterminationDeck = pre ++ [last] ∧
      last.rank = 14 ∧ ∀ c ∈ pre, c.rank ≠ 14) ∧
    hakimDetermination determinationState sampleDeterminationDeck =
      { determinationState with
        hakimDeterminationCards := revealUntilAce sampleDeterminationDeck
        hakimId := some playerOne.id
        currentTurnPlayerId := some playerOne.id
        phase := GamePhase.DEALING_INITIAL
        logs := determinationState.logs ++ [hakimLog playerOne.name] } :=
  c9_hakim_determination determinationState sampleDeterminationDeck playerOne
    ⟨{ id := "H-14", suit := Suit.Hearts, rank := 14 }, by decide, by decide⟩
    (by decide)

/-! ## Claim C1

The claim's acceptance condition (c) — "the player's hand contains the
card" — is not checked anywhere in `handlePlayCard`: the handler verifies
the turn, the table size, the seat, and the follow-suit rule, and then
removes cards by id with `filter` (a no-op when the card is absent).  The
counterexample below shows an attempt with a card outside the hand being
accepted.  The remaining conditions and all claimed effects hold, with
removal meaning "every card with the played card's id is dropped". -/

/-- The spec's follow-suit legality condition (d) for a play, also the
condition the client gate of `handlePlayCard` enforces: when the trick is
non-empty and the hand holds a card of the lead suit, the played card must
follow it. -/
def followSuitOk (player : Player) (card : Card) (tableCards : List TableCard) :
    Prop :=
  match tableCards with
  | [] => True
  | t0 :: _ => (∃ c ∈ player.hand, c.suit = t0.card.suit) → card.suit = t0.card.suit

/-- The state after the play used in the C1 counterexample: the foreign
card lands on the table while the hand is untouched. -/
def foreignCard : Card := { id := "H-5", suit := Suit.Hearts, rank := 5 }

/-- Result state of the counterexample play. -/
def c1ResultState : GameState :=
  { sampleState with
      tableCards := [{ playerId := "p1", card := foreignCard }]
      lastActionTimestamp := 99
      currentTurnPlayerId := some "p2" }

/-- Counterexample to C1 as stated: in a `PLAYING` state where it is
`p1`'s turn, the table has room and the trick is empty, a `playCard`
attempt with a card that is *not* in `p1`'s hand is accepted (the claim's
condition (c) would require rejection), and the player's hand is left
unchanged while the foreign card is appended to the table. -/
theorem c1_counterexample_card_not_in_hand :
    sampleState.phase = GamePhase.PLAYING ∧
    sampleState.currentTurnPlayerId = some "p1" ∧
    foreignCard ∉ playerOne.hand ∧
    handlePlayCard 99 "p1" foreignCard sampleState = some c1ResultState ∧
    c1ResultState.players = sampleState.players := by
  decide

/-- On a successful run, the `handlePlayCard` transaction modifier removes
every card with the played card's id from the acting player's hand,
appends the play to the table, stamps the timestamp and hands the turn to
the next seat. -/
theorem playCardModifier_success (now : Nat) (pid : String) (card : Card)
    (s : GameState) (i : Nat) (player : Player)
    (hturn : s.currentTurnPlayerId = some pid)
    (hlt : s.tableCards.length < modeMax s.mode)
    (hidx : findPlayerIdx s.players pid = some i)
    (hget : s.players[i]? = some (some player)) :
    playCardModifier now pid card s =
      some { s with
        players := s.players.set i
          (some { player with hand := player.hand.filter (fun c => c.id ≠ card.id) })
        tableCards := s.tableCards ++ [⟨pid, card⟩]
        lastActionTimestamp := now
        currentTurnPlayerId := getSeatId
          (s.players.set i
            (some { player with hand := player.hand.filter (fun c => c.id ≠ card.id) }))
          ((i + 1) % modeMax s.mode) } := by
  simp [playCardModifier, hturn, hlt, hidx, hget]

/-- C1 (amended): in a `PLAYING` state with the acting player seated at
index `i`, a `playCard` attempt is accepted iff (a) it is that player's
turn, (b) the table has fewer cards than the player count, and (d) the
follow-suit rule holds — condition (c), holding the card, is NOT required.
When accepted: every card with the played card's id is removed from the
hand (in particular the card itself when held), `{playerId, card}` is
appended to `tableCards`, `lastActionTimestamp` is stamped, and — when
all seats are occupied and the seat array has the mode's length — the
turn passes to the occupant of seat `(i+1) mod playerCount`. -/
theorem c1_playCard_accept_amended (now : Nat) (pid : String) (card : Card)
    (s : GameState) (i : Nat) (player : Player)
    (hphase : s.phase = GamePhase.PLAYING)
    (hidx : findPlayerIdx s.players pid = some i)
    (hget : s.players[i]? = some (some player)) :
    ((handlePlayCard now pid card s).isSome ↔
      (s.currentTurnPlayerId = some pid ∧
        s.tableCards.length < modeMax s.mode ∧
        followSuitOk player card s.tableCards)) ∧
    (∀ s', handlePlayCard now pid card s = some s' →
      s'.players = s.players.set i
        (some { player with hand := player.hand.filter (fun c => c.id ≠ card.id) }) ∧
      s'.tableCards = s.tableCards ++ [⟨pid, card⟩] ∧
      s'.lastActionTimestamp = now ∧
      ((∀ q ∈ s.players, q.isSome) → s.players.length = modeMax s.mode →
        ∃ nq, s.players[((i + 1) % modeMax s.mode)]? = some (some nq) ∧
          s'.currentTurnPlayerId = some nq.id)) := by
  have hfp : findPlayer s.players pid = some player := by
    rcases findIdxFrom_spec (seatMatchesId pid) rfl s.players i hidx with
      ⟨q, hq1, _, hq3⟩
    rw [hget] at hq1
    injection hq1 with hq1
    injection hq1 with hq1
    unfold findPlayer
    rw [hq3, hq1]
  -- a successful run always produces the modifier's record
  have heffect : ∀ s', handlePlayCard now pid card s = some s' →
      s' = { s with
        players := s.players.set i
          (some { player with hand := player.hand.filter (fun c => c.id ≠ card.id) })
        tableCards := s.tableCards ++ [⟨pid, card⟩]
        lastActionTimestamp := now
        currentTurnPlayerId := getSeatId
          (s.players.set i
            (some { player with hand := player.hand.filter (fun c => c.id ≠ card.id) }))
          ((i + 1) % modeMax s.mode) } := by
    intro s' h
    by_cases hturn : s.currentTurnPlayerId = some pid
    · by_cases hlt : s.tableCards.length < modeMax s.mode
      · unfold handlePlayCard at h
        rw [if_pos hturn] at h
        dsimp only at h
        rw [if_pos hlt, hfp] at h
        cases htab : s.tableCards with
        | nil =>
          have hmod := playCardModifier_success now pid card s i player hturn hlt hidx hget
          rw [htab] at h hmod
          dsimp only at h
          rw [hmod] at h
          exact (Option.some.inj h).symm
        | cons t0 rest =>
          have hmod := playCardModifier_success now pid card s i player hturn hlt hidx hget
          rw [htab] at h hmod
          dsimp only at h
          split_ifs at h with hgate
          rw [hmod] at h
          exact (Option.some.inj h).symm
      · unfold handlePlayCard at h
        rw [if_pos hturn] at h
        dsimp only at h
        rw [if_neg hlt] at h
        cases h
    · unfold handlePlayCard at h
      rw [if_neg hturn] at h
      cases h
  constructor
  · constructor
    · -- accepted → (a) ∧ (b) ∧ (d)
      intro hsome
      rcases Option.isSome_iff_exists.mp hsome with ⟨s', h⟩
      by_cases hturn : s.currentTurnPlayerId = some pid
      · by_cases hlt : s.tableCards.length < modeMax s.mode
        · refine ⟨hturn, hlt, ?_⟩
          unfold handlePlayCard at h
          rw [if_pos hturn] at h
          dsimp only at h
          rw [if_pos hlt, hfp] at h
          cases htab : s.tableCards with
          | nil => exact trivial
          | cons t0 rest =>
            rw [htab] at h
            dsimp only at h
            unfold followSuitOk
            intro hex
            by_contra hne
            have hany : player.hand.any (fun c => c.suit = t0.card.suit) = true := by
              rcases hex with ⟨c, hc, hcs⟩
              exact List.any_eq_true.mpr ⟨c, hc, by simp [hcs]⟩
            rw [if_pos ⟨hany, hne⟩] at h
            cases h
        · unfold handlePlayCard at h
          rw [if_pos hturn] at h
          dsimp only at h
          rw [if_neg hlt] at h
          cases h
      · unfold handlePlayCard at h
        rw [if_neg hturn] at h
        cases h
    · -- (a) ∧ (b) ∧ (d) → accepted
      rintro ⟨hturn, hlt, hfollow⟩
      have hmod := playCardModifier_success now pid card s i player hturn hlt hidx hget
      unfold handlePlayCard
      rw [if_pos hturn]
      dsimp only
      rw [if_pos hlt, hfp]
      cases htab : s.tableCards with
      | nil =>
        rw [htab] at hmod
        rw [hmod]
        rfl
      | cons t0 rest =>
        have hgate : ¬ ((player.hand.any (fun c => c.suit = t0.card.suit)) = true ∧
            card.suit ≠ t0.card.suit) := by
          rintro ⟨hany, hne⟩
          rcases List.any_eq_true.mp hany with ⟨c, hc, hcs⟩
          rw [htab] at hfollow
          exact hne (hfollow ⟨c, hc, by simpa using hcs⟩)
        rw [htab] at hmod
        dsimp only
        rw [if_neg hgate, hmod]
        rfl
  · -- effects
    intro s' h
    have hs' := heffect s' h
    subst hs'
    refine ⟨rfl, rfl, rfl, ?_⟩
    intro hocc hlen
    have hmaxpos : 0 < modeMax s.mode := by cases s.mode <;> simp [modeMax]
    have hj : (i + 1) % modeMax s.mode < s.players.length := by
      rw [hlen]; exact Nat.mod_lt _ hmaxpos
    have hje : s.players[((i + 1) % modeMax s.mode)]? =
        some (s.players[(i + 1) % modeMax s.mode]) := List.getElem?_eq_getElem hj
    have hmem : s.players[(i + 1) % modeMax s.mode] ∈ s.players :=
      List.getElem_mem hj
    rcases Option.isSome_iff_exists.mp (hocc _ hmem) with ⟨nq, hnq⟩
    by_cases hij : (i + 1) % modeMax s.mode = i
    · -- the next seat is the actor's seat (only possible in degenerate sizes)
      refine ⟨player, by rw [hij]; exact hget, ?_⟩
      show getSeatId _ _ = _
      unfold getSeatId
      have hi' : i < s.players.length := hij ▸ hj
      rw [hij, List.getElem?_set_eq_of_lt _ hi']
    · refine ⟨nq, by rw [hje, hnq], ?_⟩
      show getSeatId _ _ = _
      unfold getSeatId
      rw [List.getElem?_set_ne (fun h2 => hij h2.symm), hje, hnq]

/-- Witness for C1 (amended): a concrete legal follow-suit play is
accepted and has all the claimed effects. -/
theorem c1_playCard_accept_amended_witness :
    ((handlePlayCard 7 "p2" { id := "C-2", suit := Suit.Clubs, rank := 2 }
        { sampleState with
            tableCards := [{ playerId := "p1", card := { id := "C-9", suit := Suit.Clubs, rank := 9 } }]
            currentTurnPlayerId := some "p2" }).isSome ↔
      (({ sampleState with
            tableCards := [{ playerId := "p1", card := { id := "C-9", suit := Suit.Clubs, rank := 9 } }]
            currentTurnPlayerId := some "p2" } : GameState).currentTurnPlayerId = some "p2" ∧
        ({ sampleState with
            tableCards := [{ playerId := "p1", card := { id := "C-9", suit := Suit.Clubs, rank := 9 } }]
            currentTurnPlayerId := some "p2" } : GameState).tableCards.length <
          modeMax Mode.twoP ∧
        followSuitOk playerTwo { id := "C-2", suit := Suit.Clubs, rank := 2 }
          [{ playerId := "p1", card := { id := "C-9", suit := Suit.Clubs, rank := 9 } }])) ∧
    (∀ s', handlePlayCard 7 "p2" { id := "C-2", suit := Suit.Clubs, rank := 2 }
        { sampleState with
            tableCards := [{ playerId := "p1", card := { id := "C-9", suit := Suit.Clubs, rank := 9 } }]
            currentTurnPlayerId := some "p2" } = some s' →
      s'.players = [some playerOne, some playerTwo].set 1
        (some { playerTwo with
          hand := playerTwo.hand.filter
            (fun c => c.id ≠ ({ id := "C-2", suit := Suit.Clubs, rank := 2 } : Card).id) }) ∧
      s'.tableCards =
        [{ playerId := "p1", card := { id := "C-9", suit := Suit.Clubs, rank := 9 } }] ++
          [⟨"p2", { id := "C-2", suit := Suit.Clubs, rank := 2 }⟩] ∧
      s'.lastActionTimestamp = 7 ∧
      ((∀ q ∈ ([some playerOne, some playerTwo] : List (Option Player)), q.isSome) →
        ([some playerOne, some playerTwo] : List (Option Player)).length = modeMax Mode.twoP →
        ∃ nq, ([some playerOne, some playerTwo] : List (Option Player))[(1 + 1) % modeMax Mode.twoP]? =
          some (some nq) ∧ s'.currentTurnPlayerId = some nq.id)) :=
  c1_playCard_accept_amended 7 "p2" { id := "C-2", suit := Suit.Clubs, rank := 2 }
    { sampleState with
        tableCards := [{ playerId := "p1", card := { id := "C-9", suit := Suit.Clubs, rank := 9 } }]
        currentTurnPlayerId := some "p2" }
    1 playerTwo rfl (by decide) (by decide)

/-! ## Claim C2

The `DEALING_REMAINDER` branch writes back only `players`, `phase` and
`currentTurnPlayerId` — it never writes the `deck` field, so the state's
deck keeps the 47 cards left by the initial deal (in 2p mode only 21 of
them are even read).  The claim's "`deck` field is empty" is therefore
false; everything else it states holds. -/

/-- A 2p `DEALING_REMAINDER` state: hakim `p1` holds 5 cards, 47 on deck. -/
def c2State : GameState :=
  { sampleState with
      phase := GamePhase.DEALING_REMAINDER
      players := [some { playerOne with hand := hand5 },
                  some { playerTwo with hand := [] }]
      deck := List.replicate 47 cardBack }

/-- The state `c2State` transitions to. -/
def c2Result : GameState :=
  { c2State with
      players := [some { playerOne with hand := hand5 ++ (List.replicate 47 cardBack).take 8 },
                  some { playerTwo with hand := ((List.replicate 47 cardBack).drop 8).take 13 }]
      phase := GamePhase.PLAYING
      currentTurnPlayerId := some "p1" }

/-- Counterexample to C2 as stated: the completed `DEALING_REMAINDER`
transition leaves the 47-card deck in the `deck` field — it is not empty
(both hands do reach 13 cards and play starts with the hakim). -/
theorem c2_counterexample_deck_not_empty :
    dealRemainder c2State = some c2Result ∧
    c2Result.deck = List.replicate 47 cardBack ∧
    c2Result.deck ≠ [] ∧
    c2Result.players.map (fun q => q.map (fun p => p.hand.length)) =
      [some 13, some 13] ∧
    c2Result.phase = GamePhase.PLAYING ∧
    c2Result.currentTurnPlayerId = c2State.hakimId := by
  decide

/-- C2 (amended): completing `DEALING_REMAINDER` from a well-formed state
(47 cards on deck, hakim seated with exactly the 5 initially dealt cards,
all seats occupied) distributes the deck exactly as claimed — in 2p mode
the hakim's hand is extended with the first 8 deck cards and the sole
opponent receives deck positions 8..20; in 4p mode the seats at
hakim+1, hakim+2, hakim+3 (clockwise) receive the deck's consecutive
13-card blocks and the hakim's hand is completed with the following 8 —
so every seated player ends with a 13-card hand, the phase becomes
`PLAYING` and the turn passes to the hakim; but the `deck` field is left
unchanged (still holding 47 cards) rather than empty. -/
theorem c2_deal_remainder_amended (s : GameState) (hi : Nat) (hp : Player)
    (hlen : s.players.length = modeMax s.mode)
    (hocc : ∀ q ∈ s.players, q.isSome)
    (hdeck : s.deck.length = 47)
    (hidx : findHakimIdx s.players s.hakimId = some hi)
    (hget : s.players[hi]? = some (some hp))
    (hh5 : hp.hand.length = 5) :
    ∃ s', dealRemainder s = some s' ∧
      s'.deck = s.deck ∧
      (∀ q ∈ s'.players, ∃ p, q = some p ∧ p.hand.length = 13) ∧
      s'.phase = GamePhase.PLAYING ∧
      s'.currentTurnPlayerId = s.hakimId ∧
      (s.mode = Mode.twoP →
        s'.players[hi]? =
          some (some { hp with hand := hp.hand ++ s.deck.take 8 }) ∧
        (∀ op, s.players[(if hi = 0 then 1 else 0 : Nat)]? = some (some op) →
          s'.players[(if hi = 0 then 1 else 0 : Nat)]? =
            some (some { op with hand := (s.deck.drop 8).take 13 }))) ∧
      (s.mode = Mode.fourP →
        s'.players[hi]? =
          some (some { hp with hand := hp.hand ++ (s.deck.drop 39).take 8 }) ∧
        (∀ p1, s.players[(hi + 1) % 4]? = some (some p1) →
          s'.players[(hi + 1) % 4]? =
            some (some { p1 with hand := s.deck.take 13 })) ∧
        (∀ p2, s.players[(hi + 2) % 4]? = some (some p2) →
          s'.players[(hi + 2) % 4]? =
            some (some { p2 with hand := (s.deck.drop 13).take 13 })) ∧
        (∀ p3, s.players[(hi + 3) % 4]? = some (some p3) →
          s'.players[(hi + 3) % 4]? =
            some (some { p3 with hand := (s.deck.drop 26).take 13 }))) := by
  have hguard : ¬ (allHandsDealt s.players = true) := by
    intro hg
    have hall := List.all_eq_true.mp hg
    have hmem : some hp ∈ s.players := List.getElem?_mem hget
    have := hall (some hp) hmem
    simp [hh5] at this
  have hlen8 : (s.deck.take 8).length = 8 := by
    simp [List.length_take]; omega
  have hlen13a : ((s.deck.drop 8).take 13).length = 13 := by
    simp [List.length_take, List.length_drop]; omega
  have hlen13b : (s.deck.take 13).length = 13 := by
    simp [List.length_take]; omega
  have hlen13c : ((s.deck.drop 13).take 13).length = 13 := by
    simp [List.length_take, List.length_drop]; omega
  have hlen13d : ((s.deck.drop 26).take 13).length = 13 := by
    simp [List.length_take, List.length_drop]; omega
  have hlen8b : ((s.deck.drop 39).take 8).length = 8 := by
    simp [List.length_take, List.length_drop]; omega
  cases hmode : s.mode with
  | twoP =>
    rw [hmode] at hlen
    obtain ⟨a, b, hab⟩ := List.length_eq_two.mp hlen
    have hhi : hi < 2 := by
      by_contra hge
      push_neg at hge
      have hnone : s.players[hi]? = none := by
        apply List.getElem?_eq_none
        rw [hab]
        simpa using hge
      rw [hnone] at hget
      cases hget
    rw [hab] at hget
    interval_cases hi
    · have ha : a = some hp := by simpa using hget
      obtain ⟨pb, hpb⟩ := Option.isSome_iff_exists.mp (hocc b (by rw [hab]; simp))
      have heq : dealRemainder s = some { s with
          players := [some { hp with hand := hp.hand ++ s.deck.take 8 },
                      some { pb with hand := (s.deck.drop 8).take 13 }],
          phase := GamePhase.PLAYING,
          currentTurnPlayerId := s.hakimId } := by
        unfold dealRemainder
        rw [if_neg hguard, hidx, hmode]
        dsimp only
        unfold appendHakimHand setHand
        rw [hab, ha, hpb]
        simp [hh5]
      refine ⟨_, heq, rfl, ?_, rfl, rfl, ?_, ?_⟩
      · intro q hq
        simp only [List.mem_cons, List.not_mem_nil, or_false] at hq
        rcases hq with rfl | rfl
        · exact ⟨_, rfl, by simp [hh5, hlen8]⟩
        · exact ⟨_, rfl, hlen13a⟩
      · intro _
        refine ⟨rfl, ?_⟩
        intro op hop
        rw [hab, hpb] at hop
        simp at hop
        subst hop
        simp
      · intro hf
        exact Mode.noConfusion hf
    · have hb : b = some hp := by simpa using hget
      obtain ⟨pa, hpa⟩ := Option.isSome_iff_exists.mp (hocc a (by rw [hab]; simp))
      have heq : dealRemainder s = some { s with
          players := [some { pa with hand := (s.deck.drop 8).take 13 },
                      some { hp with hand := hp.hand ++ s.deck.take 8 }],
          phase := GamePhase.PLAYING,
          currentTurnPlayerId := s.hakimId } := by
        unfold dealRemainder
        rw [if_neg hguard, hidx, hmode]
        dsimp only
        unfold appendHakimHand setHand
        rw [hab, hpa, hb]
        simp [hh5]
      refine ⟨_, heq, rfl, ?_, rfl, rfl, ?_, ?_⟩
      · intro q hq
        simp only [List.mem_cons, List.not_mem_nil, or_false] at hq
        rcases hq with rfl | rfl
        · exact ⟨_, rfl, hlen13a⟩
        · exact ⟨_, rfl, by simp [hh5, hlen8]⟩
      · intro _
        refine ⟨rfl, ?_⟩
        intro op hop
        rw [hab, hpa] at hop
        simp at hop
        subst hop
        simp
      · intro hf
        exact Mode.noConfusion hf
  | fourP =>
    rw [hmode] at hlen
    obtain ⟨a, b, c, d, habcd⟩ : ∃ a b c d, s.players = [a, b, c, d] := by
      match hps : s.players, hlen with
      | [a, b, c, d], _ => exact ⟨a, b, c, d, rfl⟩
    have hhi : hi < 4 := by
      by_contra hge
      push_neg at hge
      have hnone : s.players[hi]? = none := by
        apply List.getElem?_eq_none
        rw [habcd]
        simpa using hge
      rw [hnone] at hget
      cases hget
    rw [habcd] at hget
    obtain ⟨pa, hpa⟩ := Option.isSome_iff_exists.mp (hocc a (by rw [habcd]; simp))
    obtain ⟨pb, hpb⟩ := Option.isSome_iff_exists.mp (hocc b (by rw [habcd]; simp))
    obtain ⟨pc, hpc⟩ := Option.isSome_iff_exists.mp (hocc c (by rw [habcd]; simp))
    obtain ⟨pd, hpd⟩ := Option.isSome_iff_exists.mp (hocc d (by rw [habcd]; simp))
    interval_cases hi
    · have ha : a = some hp := by simpa using hget
      have heq : dealRemainder s = some { s with
          players := [some { hp with hand := hp.hand ++ (s.deck.drop 39).take 8 },
                      some { pb with hand := s.deck.take 13 },
                      some { pc with hand := (s.deck.drop 13).take 13 },
                      some { pd with hand := (s.deck.drop 26).take 13 }],
          phase := GamePhase.PLAYING,
          currentTurnPlayerId := s.hakimId } := by
        unfold dealRemainder
        rw [if_neg hguard, hidx, hmode]
        dsimp only
        unfold appendHakimHand setHand
        rw [habcd, ha, hpb, hpc, hpd]
        simp [hh5]
      refine ⟨_, heq, rfl, ?_, rfl, rfl, ?_, ?_⟩
      · intro q hq
        simp only [List.mem_cons, List.not_mem_nil, or_false] at hq
        rcases hq with rfl | rfl | rfl | rfl
        · exact ⟨_, rfl, by simp [hh5, hlen8b]⟩
        · exact ⟨_, rfl, hlen13b⟩
        · exact ⟨_, rfl, hlen13c⟩
        · exact ⟨_, rfl, hlen13d⟩
      · intro hf
        exact Mode.noConfusion hf
      · intro _
        refine ⟨rfl, ?_, ?_, ?_⟩
        · intro p1 h1
          rw [habcd, hpb] at h1
          simp at h1
          subst h1
          simp
        · intro p2 h2
          rw [habcd, hpc] at h2
          simp at h2
          subst h2
          simp
        · intro p3 h3
          rw [habcd, hpd] at h3
          simp at h3
          subst h3
          simp
    · have hb : b = some hp := by simpa using hget
      have heq : dealRemainder s = some { s with
          players := [some { pa with hand := (s.deck.drop 26).take 13 },
                      some { hp with hand := hp.hand ++ (s.deck.drop 39).take 8 },
                      some { pc with hand := s.deck.take 13 },
                      some { pd with hand := (s.deck.drop 13).take 13 }],
          phase := GamePhase.PLAYING,
          currentTurnPlayerId := s.hakimId } := by
        unfold dealRemainder
        rw [if_neg hguard, hidx, hmode]
        dsimp only
        unfold appendHakimHand setHand
        rw [habcd, hpa, hb, hpc, hpd]
        simp [hh5]
      refine ⟨_, heq, rfl, ?_, rfl, rfl, ?_, ?_⟩
      · intro q hq
        simp only [List.mem_cons, List.not_mem_nil, or_false] at hq
        rcases hq with rfl | rfl | rfl | rfl
        · exact ⟨_, rfl, hlen13d⟩
        · exact ⟨_, rfl, by simp [hh5, hlen8b]⟩
        · exact ⟨_, rfl, hlen13b⟩
        · exact ⟨_, rfl, hlen13c⟩
      · intro hf
        exact Mode.noConfusion hf
      · intro _
        refine ⟨rfl, ?_, ?_, ?_⟩
        · intro p1 h1
          rw [habcd, hpc] at h1
          simp at h1
          subst h1
          simp
        · intro p2 h2
          rw [habcd, hpd] at h2
          simp at h2
          subst h2
          simp
        · intro p3 h3
          rw [habcd, hpa] at h3
          simp at h3
          subst h3
          simp
    · have hc : c = some hp := by simpa using hget
      have heq : dealRemainder s = some { s with
          players := [some { pa with hand := (s.deck.drop 13).take 13 },
                      some { pb with hand := (s.deck.drop 26).take 13 },
                      some { hp with hand := hp.hand ++ (s.deck.drop 39).take 8 },
                      some { pd with hand := s.deck.take 13 }],
          phase := GamePhase.PLAYING,
          currentTurnPlayerId := s.hakimId } := by
        unfold dealRemainder
        rw [if_neg hguard, hidx, hmode]
        dsimp only
        unfold appendHakimHand setHand
        rw [habcd, hpa, hpb, hc, hpd]
        simp [hh5]
      refine ⟨_, heq, rfl, ?_, rfl, rfl, ?_, ?_⟩
      · intro q hq
        simp only [List.mem_cons, List.not_mem_nil, or_false] at hq
        rcases hq with rfl | rfl | rfl | rfl
        · exact ⟨_, rfl, hlen13c⟩
        · exact ⟨_, rfl, hlen13d⟩
        · exact ⟨_, rfl, by simp [hh5, hlen8b]⟩
        · exact ⟨_, rfl, hlen13b⟩
      · intro hf
        exact Mode.noConfusion hf
      · intro _
        refine ⟨rfl, ?_, ?_, ?_⟩
        · intro p1 h1
          rw [habcd, hpd] at h1
          simp at h1
          subst h1
          simp
        · intro p2 h2
          rw [habcd, hpa] at h2
          simp at h2
          subst h2
          simp
        · intro p3 h3
          rw [habcd, hpb] at h3
          simp at h3
          subst h3
          simp
    · have hd : d = some hp := by simpa using hget
      have heq : dealRemainder s = some { s with
          players := [some { pa with hand := s.deck.take 13 },
                      some { pb with hand := (s.deck.drop 13).take 13 },
                      some { pc with hand := (s.deck.drop 26).take 13 },
                      some { hp with hand := hp.hand ++ (s.deck.drop 39).take 8 }],
          phase := GamePhase.PLAYING,
          currentTurnPlayerId := s.hakimId } := by
        unfold dealRemainder
        rw [if_neg hguard, hidx, hmode]
        dsimp only
        unfold appendHakimHand setHand
        rw [habcd, hpa, hpb, hpc, hd]
        simp [hh5]
      refine ⟨_, heq, rfl, ?_, rfl, rfl, ?_, ?_⟩
      · intro q hq
        simp only [List.mem_cons, List.not_mem_nil, or_false] at hq
        rcases hq with rfl | rfl | rfl | rfl
        · exact ⟨_, rfl, hlen13b⟩
        · exact ⟨_, rfl, hlen13c⟩
        · exact ⟨_, rfl, hlen13d⟩
        · exact ⟨_, rfl, by simp [hh5, hlen8b]⟩
      · intro hf
        exact Mode.noConfusion hf
      · intro _
        refine ⟨rfl, ?_, ?_, ?_⟩
        · intro p1 h1
          rw [habcd, hpa] at h1
          simp at h1
          subst h1
          simp
        · intro p2 h2
          rw [habcd, hpb] at h2
          simp at h2
          subst h2
          simp
        · intro p3 h3
          rw [habcd, hpc] at h3
          simp at h3
          subst h3
          simp

/-- Witness for C2 (amended) at the concrete state `c2State` (2p mode,
hakim at seat 0): all conclusions, including the per-seat distribution,
hold at a concrete input. -/
theorem c2_deal_remainder_amended_witness :
    ∃ s', dealRemainder c2State = some s' ∧
      s'.deck = c2State.deck ∧
      (∀ q ∈ s'.players, ∃ p, q = some p ∧ p.hand.length = 13) ∧
      s'.phase = GamePhase.PLAYING ∧
      s'.currentTurnPlayerId = c2State.hakimId ∧
      (c2State.mode = Mode.twoP →
        s'.players[0]? = some (some { ({ playerOne with hand := hand5 } : Player) with
          hand := ({ playerOne with hand := hand5 } : Player).hand ++ c2State.deck.take 8 }) ∧
        (∀ op, c2State.players[1]? = some (some op) →
          s'.players[1]? = some (some { op with hand := (c2State.deck.drop 8).take 13 }))) ∧
      (c2State.mode = Mode.fourP →
        s'.players[0]? = some (some { ({ playerOne with hand := hand5 } : Player) with
          hand := ({ playerOne with hand := hand5 } : Player).hand ++ (c2State.deck.drop 39).take 8 }) ∧
        (∀ p1, c2State.players[1]? = some (some p1) →
          s'.players[1]? = some (some { p1 with hand := c2State.deck.take 13 })) ∧
        (∀ p2, c2State.players[2]? = some (some p2) →
          s'.players[2]? = some (some { p2 with hand := (c2State.deck.drop 13).take 13 })) ∧
        (∀ p3, c2State.players[3]? = some (some p3) →
          s'.players[3]? = some (some { p3 with hand := (c2State.deck.drop 26).take 13 }))) :=
  c2_deal_remainder_amended c2State 0 { playerOne with hand := hand5 }
    (by decide) (by decide) (by decide) (by decide) (by decide) (by decide)

/-! ## Claim C7 -/

/-- Writing a team's entry and reading it back gives the written value
(for the real team keys 1 and 2). -/
theorem tmGet_tmSet_self (m : TeamMap) (t v : Nat) (h : t = 1 ∨ t = 2) :
    tmGet (tmSet m t v) t = v := by
  rcases h with rfl | rfl <;> simp [tmGet, tmSet]

/-- C7: when a full trick ends the hand (a team reaches 7 tricks) without
ending the match (winner's score stays below 7), `finishTrickRemote`
rotates the hakim to seat `(hakimIndex+1) mod playerCount` exactly when
the hakim's team lost the hand (and keeps it otherwise), and resets
`deck`, `tableCards`, `currentRoundTricks`, `hokm` and
`hakimDeterminationCards`, moving the phase back to `DEALING_INITIAL`. -/
theorem c7_hand_end_rotation_and_reset (s : GameState) (hk : Suit)
    (c0 : TableCard) (rest : List TableCard) (wp hp np : Player)
    (hi : Nat) (tricks1 : TeamMap) (wt points : Nat)
    (hphase : s.phase = GamePhase.PLAYING)
    (htable : s.tableCards = c0 :: rest)
    (hfull : modeMax s.mode ≤ s.tableCards.length)
    (hhokm : s.hokm = some hk)
    (hwp : findPlayer s.players
      (determineTrickWinner s.tableCards hk c0.card.suit) = some wp)
    (htricks : tricks1 = tmSet s.currentRoundTricks wp.teamId
      (tmGet s.currentRoundTricks wp.teamId + 1))
    (hover : 7 ≤ tmGet tricks1 1 ∨ 7 ≤ tmGet tricks1 2)
    (hwt : wt = if 7 ≤ tmGet tricks1 2 then 2 else 1)
    (hhp : findHakim s.players s.hakimId = some hp)
    (hhi : findHakimIdx s.players s.hakimId = some hi)
    (hnp : s.players[(hi + 1) % modeMax s.mode]? = some (some np))
    (hpoints : points = calculateRoundPoints 7
      (tmGet tricks1 (if wt = 1 then 2 else 1)) (decide (hp.teamId = wt)))
    (hnotend : tmGet s.scores wt + points < 7) :
    ∃ s', finishTrick s = some s' ∧
      s'.phase = GamePhase.DEALING_INITIAL ∧
      s'.deck = [] ∧
      s'.tableCards = [] ∧
      s'.currentRoundTricks = ⟨0, 0⟩ ∧
      s'.hokm = none ∧
      s'.hakimDeterminationCards = [] ∧
      s'.hakimId = (if hp.teamId = wt then s.hakimId else some np.id) := by
  have hnlt : ¬ (s.tableCards.length < modeMax s.mode) := not_lt.mpr hfull
  rw [htable] at hwp
  have hwteam : wt = 1 ∨ wt = 2 := by
    by_cases h2 : 7 ≤ tmGet tricks1 2
    · right; rw [hwt, if_pos h2]
    · left; rw [hwt, if_neg h2]
  have hscore : ¬ (7 ≤ tmGet (tmSet s.scores wt (tmGet s.scores wt + points)) wt) := by
    rw [tmGet_tmSet_self _ _ _ hwteam]
    omega
  have heq : finishTrick s = some
      { s with
        currentRoundTricks := ⟨0, 0⟩
        lastWinnerId := some (determineTrickWinner (c0 :: rest) hk c0.card.suit)
        currentTurnPlayerId := some (determineTrickWinner (c0 :: rest) hk c0.card.suit)
        scores := tmSet s.scores wt (tmGet s.scores wt + points)
        phase := GamePhase.DEALING_INITIAL
        deck := []
        tableCards := []
        hakimId := if decide (hp.teamId = wt) then s.hakimId else some np.id
        hokm := none
        hakimDeterminationCards := []
        logs := s.logs ++ [handEndLog] } := by
    unfold finishTrick
    rw [if_neg hnlt, htable]
    dsimp only
    rw [hhokm]
    dsimp only
    rw [hwp]
    dsimp only
    rw [← htricks, if_pos hover]
    rw [← hwt, hhp]
    dsimp only
    rw [← hpoints, if_neg hscore, hhi]
    dsimp only
    unfold getSeatId
    rw [hnp]
  refine ⟨_, heq, rfl, rfl, rfl, rfl, rfl, rfl, ?_⟩
  by_cases hteam : hp.teamId = wt
  · simp [hteam]
  · simp [hteam]

/-- A 2p `PLAYING` state with a full table: `p1` (team 1) is about to win
the 7th trick for team 1 while the hakim `p2` is on team 2, and the score
after the 3-point kot stays below 7. -/
def c7State : GameState :=
  { sampleState with
      hakimId := some "p2"
      players := [some { playerOne with hand := [] }, some playerTwo]
      tableCards :=
        [{ playerId := "p1", card := { id := "S-14", suit := Suit.Spades, rank := 14 } },
         { playerId := "p2", card := { id := "S-2", suit := Suit.Spades, rank := 2 } }]
      currentRoundTricks := { one := 6, two := 0 } }

/-- Witness for C7: the hakim's team loses the hand, so the hakim rotates
from seat 1 to seat 0, and the hand state is reset. -/
theorem c7_hand_end_rotation_and_reset_witness :
    ∃ s', finishTrick c7State = some s' ∧
      s'.phase = GamePhase.DEALING_INITIAL ∧
      s'.deck = [] ∧
      s'.tableCards = [] ∧
      s'.currentRoundTricks = ⟨0, 0⟩ ∧
      s'.hokm = none ∧
      s'.hakimDeterminationCards = [] ∧
      s'.hakimId = (if playerTwo.teamId = 1 then c7State.hakimId
        else some ({ playerOne with hand := [] } : Player).id) :=
  c7_hand_end_rotation_and_reset c7State Suit.Hearts
    { playerId := "p1", card := { id := "S-14", suit := Suit.Spades, rank := 14 } }
    [{ playerId := "p2", card := { id := "S-2", suit := Suit.Spades, rank := 2 } }]
    { playerOne with hand := [] } playerTwo { playerOne with hand := [] }
    1 { one := 7, two := 0 } 1 3
    (by decide) (by decide) (by decide) (by decide) (by decide) (by decide)
    (by decide) (by decide) (by decide) (by decide) (by decide) (by decide)
    (by decide)

/-! ## Claim C6

`Step s s'` collects every write the application issues against the shared
document, applied under single-state semantics (the state a modifier or
effect reads is the state it rewrites).  Timed transitions carry the phase
guard under which the source triggers them (the dealing and trick
resolution effects check the phase before running; the hakim reveal loop
re-checks the phase each tick).  `playersPatch` covers the writes that
only touch seats (presence reconciliation, `joinRoom`, `handleSwitchSeat`)
and `joinRoom`'s optional reset of the determination cards. -/

/-- One accepted write against the shared game document. -/
inductive Step : GameState → GameState → Prop where
  | playCard (now : Nat) (uid : String) (card : Card) (s s' : GameState)
      (h : playCardModifier now uid card s = some s') : Step s s'
  | finishTrickStep (s s' : GameState)
      (hphase : s.phase = GamePhase.PLAYING)
      (h : finishTrick s = some s') : Step s s'
  | setHokmStep (suit : Suit) (s : GameState)
      (hphase : s.phase = GamePhase.HAKIM_CHOOSING_SUIT) :
      Step s (setHokm s suit)
  | startGame (s : GameState) (log : String)
      (hphase : s.phase = GamePhase.LOBBY) :
      Step s { s with phase := GamePhase.HAKIM_DETERMINATION, logs := s.logs ++ [log] }
  | determCards (s : GameState) (cards : List Card)
      (hphase : s.phase = GamePhase.HAKIM_DETERMINATION) :
      Step s { s with hakimDeterminationCards := cards }
  | determFinish (s : GameState) (deck : List Card)
      (hphase : s.phase = GamePhase.HAKIM_DETERMINATION) :
      Step s (hakimDetermination s deck)
  | dealInit (s s' : GameState) (fullDeck : List Card)
      (hphase : s.phase = GamePhase.DEALING_INITIAL)
      (h : dealInitial s fullDeck = some s') : Step s s'
  | dealRem (s s' : GameState)
      (hphase : s.phase = GamePhase.DEALING_REMAINDER)
      (h : dealRemainder s = some s') : Step s s'
  | playersPatch (s : GameState) (ps : List (Option Player)) (hdc : List Card) :
      Step s { s with players := ps, hakimDeterminationCards := hdc }

/-- The score/phase invariant: while the match has not ended, both team
scores are below 7. -/
def ScoreInv (s : GameState) : Prop :=
  s.phase ≠ GamePhase.MATCH_END → tmGet s.scores 1 < 7 ∧ tmGet s.scores 2 < 7

/-- The function `calculateRoundPoints` always awards at least one point. -/
theorem calculateRoundPoints_pos (w l : Nat) (b : Bool) :
    1 ≤ calculateRoundPoints w l b := by
  unfold calculateRoundPoints
  split_ifs <;> omega

/-- A successful `playCard` modifier changes neither scores nor phase. -/
theorem playCardModifier_scores_phase (now : Nat) (uid : String) (card : Card)
    (s s' : GameState) (h : playCardModifier now uid card s = some s') :
    s'.scores = s.scores ∧ s'.phase = s.phase := by
  unfold playCardModifier at h
  by_cases hturn : s.currentTurnPlayerId = some uid
  · rw [if_pos hturn] at h
    dsimp only at h
    by_cases hlt : s.tableCards.length < modeMax s.mode
    · rw [if_pos hlt] at h
      cases hidx : findPlayerIdx s.players uid with
      | none => rw [hidx] at h; cases h
      | some i =>
        rw [hidx] at h
        dsimp only at h
        cases hget : s.players[i]? with
        | none => rw [hget] at h; cases h
        | some seat =>
          cases seat with
          | none => rw [hget] at h; dsimp only at h; cases h
          | some player =>
            rw [hget] at h
            dsimp only at h
            rw [← Option.some.inj h]
            exact ⟨rfl, rfl⟩
    · rw [if_neg hlt] at h; cases h
  · rw [if_neg hturn] at h; cases h

/-- A completed initial deal changes neither scores nor the fact that the
phase is not `MATCH_END`: the phase becomes `HAKIM_CHOOSING_SUIT`. -/
theorem dealInitial_scores_phase (s s' : GameState) (fullDeck : List Card)
    (h : dealInitial s fullDeck = some s') :
    s'.scores = s.scores ∧ s'.phase = GamePhase.HAKIM_CHOOSING_SUIT := by
  unfold dealInitial at h
  by_cases hlen : s.deck.length > 0
  · rw [if_pos hlen] at h; cases h
  · rw [if_neg hlen] at h
    cases hidx : findHakimIdx s.players s.hakimId with
    | none => rw [hidx] at h; cases h
    | some i =>
      rw [hidx] at h
      dsimp only at h
      rw [← Option.some.inj h]
      exact ⟨rfl, rfl⟩

/-- A completed remainder deal changes neither scores nor the fact that
the phase is not `MATCH_END`: the phase becomes `PLAYING`. -/
theorem dealRemainder_scores_phase (s s' : GameState)
    (h : dealRemainder s = some s') :
    s'.scores = s.scores ∧ s'.phase = GamePhase.PLAYING := by
  unfold dealRemainder at h
  by_cases hguard : allHandsDealt s.players = true
  · rw [if_pos hguard] at h; cases h
  · rw [if_neg hguard] at h
    cases hidx : findHakimIdx s.players s.hakimId with
    | none => rw [hidx] at h; cases h
    | some i =>
      rw [hidx] at h
      dsimp only at h
      cases hmode : s.mode with
      | twoP =>
        rw [hmode] at h
        dsimp only at h
        rw [← Option.some.inj h]
        exact ⟨rfl, rfl⟩
      | fourP =>
        rw [hmode] at h
        dsimp only at h
        rw [← Option.some.inj h]
        exact ⟨rfl, rfl⟩

/-- The hakim-determination effect keeps the scores and either keeps the
phase or moves it to `DEALING_INITIAL`. -/
theorem hakimDetermination_scores_phase (s : GameState) (deck : List Card) :
    (hakimDetermination s deck).scores = s.scores ∧
    ((hakimDetermination s deck).phase = s.phase ∨
      (hakimDetermination s deck).phase = GamePhase.DEALING_INITIAL) := by
  unfold hakimDetermination
  dsimp only
  cases hseat : s.players[((revealUntilAce deck).length - 1) % modeMax s.mode]? with
  | none => exact ⟨rfl, Or.inl rfl⟩
  | some seat =>
    cases seat with
    | none => exact ⟨rfl, Or.inl rfl⟩
    | some winner => exact ⟨rfl, Or.inr rfl⟩

/-- Score/phase effect of a successful `finishTrickRemote` transaction:
either the trick did not end the hand (scores and phase untouched), or
the hand's winning team — team 1 or 2 — gains at least one point, with
the phase becoming `MATCH_END` exactly when that team's score reaches 7. -/
theorem finishTrick_spec (s s' : GameState) (h : finishTrick s = some s') :
    (s'.scores = s.scores ∧ s'.phase = s.phase) ∨
    (∃ w pts, (w = 1 ∨ w = 2) ∧ 1 ≤ pts ∧
      s'.scores = tmSet s.scores w (tmGet s.scores w + pts) ∧
      ((7 ≤ tmGet s.scores w + pts ∧ s'.phase = GamePhase.MATCH_END) ∨
        (tmGet s.scores w + pts < 7 ∧ s'.phase = GamePhase.DEALING_INITIAL))) := by
  unfold finishTrick at h
  by_cases hlt : s.tableCards.length < modeMax s.mode
  · rw [if_pos hlt] at h; cases h
  · rw [if_neg hlt] at h
    cases htab : s.tableCards with
    | nil => rw [htab] at h; cases h
    | cons c0 rest =>
      rw [htab] at h
      dsimp only at h
      cases hhokm : s.hokm with
      | none => rw [hhokm] at h; cases h
      | some hk =>
        rw [hhokm] at h
        dsimp only at h
        cases hwp : findPlayer s.players
            (determineTrickWinner (c0 :: rest) hk c0.card.suit) with
        | none => rw [hwp] at h; cases h
        | some wp =>
          rw [hwp] at h
          dsimp only at h
          set T := tmSet s.currentRoundTricks wp.teamId
            (tmGet s.currentRoundTricks wp.teamId + 1) with hT
          by_cases hover : 7 ≤ tmGet T 1 ∨ 7 ≤ tmGet T 2
          · rw [if_pos hover] at h
            set wt : Nat := (if 7 ≤ tmGet T 2 then 2 else 1 : Nat) with hwt
            have hwteam : wt = 1 ∨ wt = 2 := by
              rw [hwt]; split_ifs <;> simp
            cases hhp : findHakim s.players s.hakimId with
            | none =>
              rw [hhp] at h
              dsimp only at h
              by_cases hend : 7 ≤ tmGet (tmSet s.scores wt (tmGet s.scores wt +
                  calculateRoundPoints 7 (tmGet T (if wt = 1 then 2 else 1)) false)) wt
              · rw [if_pos hend] at h
                rw [tmGet_tmSet_self _ _ _ hwteam] at hend
                right
                refine ⟨_, _, hwteam, calculateRoundPoints_pos _ _ _, ?_,
                  Or.inl ⟨hend, ?_⟩⟩
                · rw [← Option.some.inj h]
                · rw [← Option.some.inj h]
              · rw [if_neg hend] at h
                rw [tmGet_tmSet_self _ _ _ hwteam] at hend
                push_neg at hend
                right
                refine ⟨_, _, hwteam, calculateRoundPoints_pos _ _ _, ?_,
                  Or.inr ⟨hend, ?_⟩⟩
                · rw [← Option.some.inj h]
                · rw [← Option.some.inj h]
            | some hp =>
              rw [hhp] at h
              dsimp only at h
              by_cases hend : 7 ≤ tmGet (tmSet s.scores wt (tmGet s.scores wt +
                  calculateRoundPoints 7 (tmGet T (if wt = 1 then 2 else 1))
                    (decide (hp.teamId = wt)))) wt
              · rw [if_pos hend] at h
                rw [tmGet_tmSet_self _ _ _ hwteam] at hend
                right
                refine ⟨_, _, hwteam, calculateRoundPoints_pos _ _ _, ?_,
                  Or.inl ⟨hend, ?_⟩⟩
                · rw [← Option.some.inj h]
                · rw [← Option.some.inj h]
              · rw [if_neg hend] at h
                rw [tmGet_tmSet_self _ _ _ hwteam] at hend
                push_neg at hend
                right
                refine ⟨_, _, hwteam, calculateRoundPoints_pos _ _ _, ?_,
                  Or.inr ⟨hend, ?_⟩⟩
                · rw [← Option.some.inj h]
                · rw [← Option.some.inj h]
          · rw [if_neg hover] at h
            left
            rw [← Option.some.inj h]
            exact ⟨rfl, rfl⟩

/-- Reading a team other than the written one is unchanged by `tmSet`. -/
theorem tmGet_tmSet_ne (m : TeamMap) (w v t : Nat) (hw : w = 1 ∨ w = 2)
    (ht : t ≠ w) : tmGet (tmSet m w v) t = tmGet m t := by
  rcases hw with rfl | rfl <;>
    by_cases h1 : t = 1 <;> by_cases h2 : t = 2 <;>
      simp_all [tmGet, tmSet]

/-- Conclusions of a step that changes neither scores nor phase. -/
theorem step_frozen_case (s s' : GameState) (hsc : s'.scores = s.scores)
    (hph : s'.phase = s.phase) (hinv : ScoreInv s) :
    (∀ t, tmGet s.scores t ≤ tmGet s'.scores t) ∧ ScoreInv s' ∧
    ((s.phase ≠ GamePhase.MATCH_END ∧ s'.phase = GamePhase.MATCH_END) ↔
      ∃ t, (t = 1 ∨ t = 2) ∧ tmGet s.scores t < 7 ∧ 7 ≤ tmGet s'.scores t) := by
  refine ⟨fun t => by rw [hsc], ?_, ?_⟩
  · intro hne
    rw [hsc]
    exact hinv (by rw [← hph]; exact hne)
  · constructor
    · rintro ⟨hne, hME⟩
      rw [hph] at hME
      exact absurd hME hne
    · rintro ⟨t, _, hlt, hge⟩
      rw [hsc] at hge
      omega

/-- Conclusions of a step that keeps the scores and moves the phase
between two non-`MATCH_END` phases. -/
theorem step_moved_case (s s' : GameState) (hsc : s'.scores = s.scores)
    (hph : s.phase ≠ GamePhase.MATCH_END)
    (hph' : s'.phase ≠ GamePhase.MATCH_END) (hinv : ScoreInv s) :
    (∀ t, tmGet s.scores t ≤ tmGet s'.scores t) ∧ ScoreInv s' ∧
    ((s.phase ≠ GamePhase.MATCH_END ∧ s'.phase = GamePhase.MATCH_END) ↔
      ∃ t, (t = 1 ∨ t = 2) ∧ tmGet s.scores t < 7 ∧ 7 ≤ tmGet s'.scores t) := by
  refine ⟨fun t => by rw [hsc], ?_, ?_⟩
  · intro _
    rw [hsc]
    exact hinv hph
  · constructor
    · rintro ⟨_, hME⟩
      exact absurd hME hph'
    · rintro ⟨t, _, hlt, hge⟩
      rw [hsc] at hge
      omega

/-- Per-step score/phase conclusions: scores never decrease, the score
invariant is preserved, and the phase enters `MATCH_END` exactly in a step
that lifts some team's score from below 7 to at least 7. -/
theorem step_scores (s s' : GameState) (hstep : Step s s') (hinv : ScoreInv s) :
    (∀ t, tmGet s.scores t ≤ tmGet s'.scores t) ∧ ScoreInv s' ∧
    ((s.phase ≠ GamePhase.MATCH_END ∧ s'.phase = GamePhase.MATCH_END) ↔
      ∃ t, (t = 1 ∨ t = 2) ∧ tmGet s.scores t < 7 ∧ 7 ≤ tmGet s'.scores t) := by
  cases hstep with
  | playCard now uid card s s' h =>
    obtain ⟨hsc, hph⟩ := playCardModifier_scores_phase now uid card s s' h
    exact step_frozen_case s s' hsc hph hinv
  | finishTrickStep s s' hphase h =>
    have hsME : s.phase ≠ GamePhase.MATCH_END := by rw [hphase]; intro hc; cases hc
    rcases finishTrick_spec s s' h with ⟨hsc, hph⟩ | ⟨w, pts, hw, hpos, hsc, hcase⟩
    · exact step_frozen_case s s' hsc hph hinv
    · obtain ⟨hinv1, hinv2⟩ := hinv hsME
      have hswlt : tmGet s.scores w < 7 := by rcases hw with rfl | rfl <;> assumption
      have hmono : ∀ t, tmGet s.scores t ≤ tmGet s'.scores t := by
        intro t
        by_cases htw : t = w
        · subst htw
          rw [hsc, tmGet_tmSet_self _ _ _ hw]
          omega
        · rw [hsc, tmGet_tmSet_ne _ _ _ _ hw htw]
      rcases hcase with ⟨hge, hME⟩ | ⟨hlt2, hDI⟩
      · refine ⟨hmono, ?_, ?_⟩
        · intro hne
          exact absurd hME hne
        · constructor
          · intro _
            refine ⟨w, hw, hswlt, ?_⟩
            rw [hsc, tmGet_tmSet_self _ _ _ hw]
            exact hge
          · intro _
            exact ⟨hsME, hME⟩
      · refine ⟨hmono, ?_, ?_⟩
        · intro _
          have ho1 : tmGet s'.scores 1 < 7 := by
            by_cases h1w : (1 : Nat) = w
            · subst h1w
              rw [hsc, tmGet_tmSet_self _ _ _ hw]
              omega
            · rw [hsc, tmGet_tmSet_ne _ _ _ _ hw h1w]
              omega
          have ho2 : tmGet s'.scores 2 < 7 := by
            by_cases h2w : (2 : Nat) = w
            · subst h2w
              rw [hsc, tmGet_tmSet_self _ _ _ hw]
              omega
            · rw [hsc, tmGet_tmSet_ne _ _ _ _ hw h2w]
              omega
          exact ⟨ho1, ho2⟩
        · constructor
          · rintro ⟨_, hME⟩
            rw [hDI] at hME
            cases hME
          · rintro ⟨t, htw', hlt', hge'⟩
            by_cases htw : t = w
            · subst htw
              rw [hsc, tmGet_tmSet_self _ _ _ hw] at hge'
              omega
            · rw [hsc, tmGet_tmSet_ne _ _ _ _ hw htw] at hge'
              omega
  | setHokmStep suit s hphase =>
    refine step_moved_case _ _ rfl ?_ ?_ hinv
    · rw [hphase]; intro hc; cases hc
    · intro hc; cases hc
  | startGame s log hphase =>
    refine step_moved_case _ _ rfl ?_ ?_ hinv
    · rw [hphase]; intro hc; cases hc
    · intro hc; cases hc
  | determCards s cards hphase =>
    exact step_frozen_case _ _ rfl rfl hinv
  | determFinish s deck hphase =>
    obtain ⟨hsc, hph⟩ := hakimDetermination_scores_phase s deck
    rcases hph with hph | hph
    · exact step_frozen_case _ _ hsc hph hinv
    · refine step_moved_case _ _ hsc ?_ ?_ hinv
      · rw [hphase]; intro hc; cases hc
      · rw [hph]; intro hc; cases hc
  | dealInit s s' fullDeck hphase h =>
    obtain ⟨hsc, hph⟩ := dealInitial_scores_phase s s' fullDeck h
    refine step_moved_case _ _ hsc ?_ ?_ hinv
    · rw [hphase]; intro hc; cases hc
    · rw [hph]; intro hc; cases hc
  | dealRem s s' hphase h =>
    obtain ⟨hsc, hph⟩ := dealRemainder_scores_phase s s' h
    refine step_moved_case _ _ hsc ?_ ?_ hinv
    · rw [hphase]; intro hc; cases hc
    · rw [hph]; intro hc; cases hc
  | playersPatch s ps hdc =>
    exact step_frozen_case _ _ rfl rfl hinv

/-- C6: along every sequence of accepted writes, each team's score entry
is monotonically non-decreasing and the below-7 invariant is preserved;
and a single accepted write moves the phase into `MATCH_END` exactly when
it lifts some team's score from below 7 to at least 7 (the transaction in
which a score first reaches 7). -/
theorem c6_scores_monotone_and_match_end :
    (∀ s s', Relation.ReflTransGen Step s s' → ScoreInv s →
      (∀ t, tmGet s.scores t ≤ tmGet s'.scores t) ∧ ScoreInv s') ∧
    (∀ s s', Step s s' → ScoreInv s →
      ((s.phase ≠ GamePhase.MATCH_END ∧ s'.phase = GamePhase.MATCH_END) ↔
        ∃ t, (t = 1 ∨ t = 2) ∧ tmGet s.scores t < 7 ∧ 7 ≤ tmGet s'.scores t)) := by
  constructor
  · intro s s' hrt
    induction hrt with
    | refl => exact fun hinv => ⟨fun t => le_refl _, hinv⟩
    | tail hab hbc ih =>
      intro hinv
      obtain ⟨hmono, hinv2⟩ := ih hinv
      obtain ⟨hmono2, hinv3, _⟩ := step_scores _ _ hbc hinv2
      exact ⟨fun t => le_trans (hmono t) (hmono2 t), hinv3⟩
  · intro s s' hstep hinv
    exact (step_scores s s' hstep hinv).2.2

/-- A `HAKIM_CHOOSING_SUIT` state used to witness C6. -/
def c6StateA : GameState :=
  { sampleState with phase := GamePhase.HAKIM_CHOOSING_SUIT, hokm := none }

/-- Witness for C6 at a concrete accepted `setHokm` write. -/
theorem c6_scores_monotone_and_match_end_witness :
    ((∀ t, tmGet c6StateA.scores t ≤ tmGet (setHokm c6StateA Suit.Spades).scores t) ∧
      ScoreInv (setHokm c6StateA Suit.Spades)) ∧
    ((c6StateA.phase ≠ GamePhase.MATCH_END ∧
        (setHokm c6StateA Suit.Spades).phase = GamePhase.MATCH_END) ↔
      ∃ t, (t = 1 ∨ t = 2) ∧ tmGet c6StateA.scores t < 7 ∧
        7 ≤ tmGet (setHokm c6StateA Suit.Spades).scores t) :=
  ⟨c6_scores_monotone_and_match_end.1 c6StateA (setHokm c6StateA Suit.Spades)
      (Relation.ReflTransGen.single (Step.setHokmStep Suit.Spades c6StateA rfl))
      (fun _ => by decide),
    c6_scores_monotone_and_match_end.2 c6StateA (setHokm c6StateA Suit.Spades)
      (Step.setHokmStep Suit.Spades c6StateA rfl) (fun _ => by decide)⟩

/-! ## Claim C10 -/

/-- C10: the result of `calculateRoundPoints` does not depend on its first
argument (the winning team's trick count is ignored). -/
theorem c10_calculateRoundPoints_ignores_first (a b l : Nat) (hk : Bool) :
    calculateRoundPoints a l hk = calculateRoundPoints b l hk := by
  unfold calculateRoundPoints
  rfl

end Hokm
